import Mathlib

/-!
Shallow embedding of the backup subsystem (`electron/backup.ts`) and the
authentication subsystem (`electron/database/auth.ts`) of the
electron-offline-business-app-boilerplate repository, together with proofs
about the claims of its specification.

JavaScript strings are modelled as lists of UTF-16 code units (`List Nat`);
`str` turns a Lean string literal into that representation.  Clock readings
(`new Date()`) are passed to each operation as an explicit argument.
-/

/-- A JS string as its list of UTF-16 code units. -/
def str (s : String) : List Nat := s.data.map Char.toNat

/-- The configuration constants consumed from `app.config.ts`. -/
structure AppConfig where
  backupPrefix : List Nat
  maxBackups : Nat
  sessionExpiryDays : Nat
  rememberMeEnabled : Bool

/-- The concrete configuration shipped in `app.config.ts`. -/
def appConfig : AppConfig :=
  { backupPrefix := str "app-backup", maxBackups := 7,
    sessionExpiryDays := 30, rememberMeEnabled := true }

/-- A UTC clock reading, with the fields that `Date.prototype.toISOString`
prints (year 0..9999, month 1..12, day 1..31, hour 0..23, minute/second 0..59,
milliseconds 0..999). -/
structure DateTime where
  year : Nat
  month : Nat
  day : Nat
  hour : Nat
  minute : Nat
  second : Nat
  millis : Nat
  deriving DecidableEq, Repr

/-- Field bounds of a real clock reading. -/
def DateTime.Valid (d : DateTime) : Prop :=
  d.year < 10000 ∧ 1 ≤ d.month ∧ d.month ≤ 12 ∧ 1 ≤ d.day ∧ d.day ≤ 31 ∧
    d.hour < 24 ∧ d.minute < 60 ∧ d.second < 60 ∧ d.millis < 1000

instance (d : DateTime) : Decidable d.Valid := by
  unfold DateTime.Valid; infer_instance

/-- A linearisation of the clock: strictly monotone in real time (for valid
readings); used as the modification time stamped on written files. -/
def DateTime.key (d : DateTime) : Nat :=
  (((((d.year * 13 + d.month) * 32 + d.day) * 24 + d.hour) * 60 + d.minute) * 60
      + d.second) * 1000 + d.millis

/-- The UTF-16 code unit of the decimal digit `n % 10` (`'0'` is 48). -/
def digitCode (n : Nat) : Nat := 48 + n % 10

/-- A two-digit zero-padded decimal field of `toISOString`. -/
def pad2 (n : Nat) : List Nat := [digitCode (n / 10), digitCode n]

/-- A three-digit zero-padded decimal field of `toISOString`. -/
def pad3 (n : Nat) : List Nat := [digitCode (n / 100), digitCode (n / 10), digitCode n]

/-- A four-digit zero-padded decimal field of `toISOString`. -/
def pad4 (n : Nat) : List Nat :=
  [digitCode (n / 1000), digitCode (n / 100), digitCode (n / 10), digitCode n]

/-- `Date.prototype.toISOString`: `YYYY-MM-DDTHH:MM:SS.mmmZ`.
Code units: `-` = 45, `T` = 84, `:` = 58, `.` = 46, `Z` = 90. -/
def toISOString (d : DateTime) : List Nat :=
  pad4 d.year ++ 45 :: pad2 d.month ++ 45 :: pad2 d.day ++ 84 :: pad2 d.hour ++
    58 :: pad2 d.minute ++ 58 :: pad2 d.second ++ 46 :: pad3 d.millis ++ [90]

/-- `.replace(/[:.]/g, '-')`: every colon (58) and full stop (46) becomes a dash (45). -/
def replaceColonDot (l : List Nat) : List Nat :=
  l.map fun c => if c = 58 ∨ c = 46 then 45 else c

/-- JS `s.split(sep)[0]` for a one-character separator: the part before the
first occurrence of the separator (the whole string when it does not occur). -/
def splitHead (sep : Nat) (l : List Nat) : List Nat :=
  l.takeWhile fun c => c ≠ sep

/-- JS `s.split(sep)[1]` for a one-character separator: the part between the
first and the second occurrence (up to the end when there is no second one). -/
def splitSecond (sep : Nat) (l : List Nat) : List Nat :=
  ((l.dropWhile fun c => c ≠ sep).drop 1).takeWhile fun c => c ≠ sep

/-- `backup.ts:31`: `new Date().toISOString().replace(/[:.]/g, '-').split('T')[0]`. -/
def backupDateToken (now : DateTime) : List Nat :=
  splitHead 84 (replaceColonDot (toISOString now))

/-- `backup.ts:32`:
`new Date().toISOString().replace(/[:.]/g, '-').split('T')[1].split('-')[0]`. -/
def backupTimeToken (now : DateTime) : List Nat :=
  splitHead 45 (splitSecond 84 (replaceColonDot (toISOString now)))

/-- `backup.ts:33`: `` `${BACKUP_PREFIX}_${timestamp}_${timeStr}.db` `` (`_` = 95). -/
def backupFileName (cfg : AppConfig) (now : DateTime) : List Nat :=
  cfg.backupPrefix ++ 95 :: backupDateToken now ++ 95 :: backupTimeToken now ++ str ".db"

/-- A file of the backup directory: its name and its modification time. -/
structure BackupFile where
  name : List Nat
  time : Nat
  deriving DecidableEq, Repr

/-- The state the backup engine acts on: whether the database file exists,
and the listing of the backup directory. -/
structure BackupState where
  dbExists : Bool
  dir : List BackupFile
  deriving DecidableEq, Repr

/-- The filter of `cleanupOldBackups` (`backup.ts:106`):
`file.startsWith(BACKUP_PREFIX) && file.endsWith('.db')`. -/
def isBackupName (cfg : AppConfig) (name : List Nat) : Bool :=
  cfg.backupPrefix.isPrefixOf name && (str ".db").isSuffixOf name

/-- The files of a directory listing that `cleanupOldBackups` would enumerate
as backups (prefix and `.db` extension match). -/
def backupsIn (cfg : AppConfig) (dir : List BackupFile) : List BackupFile :=
  dir.filter fun f => isBackupName cfg f.name

/-- `fs.copyFileSync` onto a path inside the backup directory: replaces the
file of that name if it exists, else creates it; the copy's mtime is the
current time. -/
def writeFile (dir : List BackupFile) (name : List Nat) (t : Nat) : List BackupFile :=
  ⟨name, t⟩ :: dir.filter fun f => f.name ≠ name

/-- The comparator `(a, b) => b.time - a.time`: newest first. -/
def timeDesc (a b : BackupFile) : Prop := b.time ≤ a.time

instance : DecidableRel timeDesc := fun a b => Nat.decLe b.time a.time

instance : IsTotal BackupFile timeDesc := ⟨fun a b => Nat.le_total b.time a.time⟩

instance : IsTrans BackupFile timeDesc := ⟨fun _ _ _ h h2 => Nat.le_trans h2 h⟩

/-- `cleanupOldBackups` (`backup.ts:102-125`): list the prefix+`.db` matches,
sort them newest first (JS `Array.prototype.sort` is stable; modelled by a
stable insertion sort) and unlink every file beyond the `MAX_BACKUPS`-th. -/
def cleanupOldBackups (cfg : AppConfig) (dir : List BackupFile) : List BackupFile :=
  let files := (backupsIn cfg dir).insertionSort timeDesc
  if files.length > cfg.maxBackups then
    let filesToDelete := files.drop cfg.maxBackups
    dir.filter fun f => filesToDelete.all fun g => g.name ≠ f.name
  else
    dir

/-- The result shape of `createBackup`. -/
structure CreateBackupResult where
  success : Bool
  message : List Nat
  filePath : Option (List Nat)
  deriving DecidableEq, Repr

/-- `createBackup` (`backup.ts:23-56`): checks the database file, derives the
backup file name from the current clock reading, copies the database file to
it and then prunes old backups. -/
def createBackup (cfg : AppConfig) (now : DateTime) (st : BackupState) :
    CreateBackupResult × BackupState :=
  if !st.dbExists then
    ({ success := false, message := str "Database file not found", filePath := none }, st)
  else
    let backupPath := backupFileName cfg now
    let dir1 := writeFile st.dir backupPath now.key
    let dir2 := cleanupOldBackups cfg dir1
    ({ success := true, message := str "Backup created successfully",
       filePath := some backupPath },
     { st with dir := dir2 })

/-- A sequence of `createBackup` calls at the given clock readings. -/
def runBackups (cfg : AppConfig) (ds : List DateTime) (st : BackupState) : BackupState :=
  ds.foldl (fun s d => (createBackup cfg d s).2) st

/-- The result of `dialog.showSaveDialog`. -/
structure SaveDialogResult where
  canceled : Bool
  filePath : Option (List Nat)

/-- JS truthiness of `result.filePath`: `undefined` and the empty string are falsy. -/
def jsFalsyPath : Option (List Nat) → Bool
  | none => true
  | some p => p.isEmpty

/-- Whether the `fs.copyFileSync` call of the manual backup succeeds or
throws (with the given error message). -/
inductive CopyOutcome where
  | ok : CopyOutcome
  | throws (e : List Nat) : CopyOutcome

/-- The result shape of `createManualBackup`. -/
structure ManualBackupResult where
  success : Bool
  message : List Nat
  deriving DecidableEq, Repr

/-- `createManualBackup` (`backup.ts:59-99`): checks the database file, shows
a save dialog, and copies the database file to the chosen path.  The second
component is the destination the copy was attempted on (`none` when no copy
was attempted, so no file was written). -/
def createManualBackup (st : BackupState) (dialogResult : SaveDialogResult)
    (copy : CopyOutcome) : ManualBackupResult × Option (List Nat) :=
  if !st.dbExists then
    ({ success := false, message := str "Database file not found" }, none)
  else if dialogResult.canceled || jsFalsyPath dialogResult.filePath then
    ({ success := false, message := str "Backup cancelled" }, none)
  else
    match copy with
    | CopyOutcome.ok =>
        ({ success := true,
           message := str "Backup saved to " ++ dialogResult.filePath.getD [] },
         dialogResult.filePath)
    | CopyOutcome.throws e =>
        ({ success := false, message := str "Backup failed: " ++ e },
         dialogResult.filePath)

/-- One UTF-16 code unit under `String.prototype.toLowerCase`, for the
basic-latin range the app's usernames live in (`A`..`Z` is 65..90). -/
def toLowerCode (c : Nat) : Nat := if 65 ≤ c ∧ c ≤ 90 then c + 32 else c

/-- `String.prototype.toLowerCase`. -/
def jsToLower (l : List Nat) : List Nat := l.map toLowerCode

/-- A whitespace code unit as `String.prototype.trim` strips it
(space, tab, line feed, carriage return, vertical tab, form feed). -/
def isJsWhitespace (c : Nat) : Bool :=
  c == 32 || c == 9 || c == 10 || c == 13 || c == 11 || c == 12

/-- `String.prototype.trim`: strip leading and trailing whitespace. -/
def jsTrim (l : List Nat) : List Nat :=
  ((l.dropWhile isJsWhitespace).reverse.dropWhile isJsWhitespace).reverse

/-- A stored bcrypt hash.  `bcryptjs` is modelled by its contract: comparing
a candidate password against `hash(p)` succeeds exactly when the candidate
is `p` (salt and cost factor are abstracted away). -/
structure Hash where
  hashedPassword : List Nat
  deriving DecidableEq, Repr

/-- `bcrypt.hash(password, SALT_ROUNDS)` under the model above. -/
def bcryptHash (password : List Nat) : Hash := ⟨password⟩

/-- `bcrypt.compare(candidate, stored)` under the model above. -/
def bcryptCompare (candidate : List Nat) (stored : Hash) : Bool :=
  candidate == stored.hashedPassword

/-- A row of the `auth_user` table (`migrations.ts:12-18`). -/
structure AuthUserRow where
  id : Nat
  username : List Nat
  password_hash : Hash
  created_at : Nat
  last_login : Option Nat
  deriving DecidableEq, Repr

/-- A row of the `auth_sessions` table (`migrations.ts:23-29`). -/
structure SessionRow where
  id : List Nat
  user_id : Nat
  created_at : Nat
  expires_at : Nat
  deriving DecidableEq, Repr

/-- The two tables the auth subsystem reads and writes. -/
structure AuthDb where
  users : List AuthUserRow
  sessions : List SessionRow
  deriving DecidableEq, Repr

/-- The database right after `initDatabase` on a fresh install: both auth
tables empty. -/
def initialAuthDb : AuthDb := ⟨[], []⟩

/-- The identity shape returned to callers (interface `AuthUser` of auth.ts). -/
structure AuthUser where
  id : Nat
  username : List Nat
  created_at : Nat
  last_login : Option Nat
  deriving DecidableEq, Repr

/-- Interface `SetupData`. -/
structure SetupData where
  username : List Nat
  password : List Nat

/-- Interface `LoginData`. -/
structure LoginData where
  username : List Nat
  password : List Nat
  rememberMe : Bool

/-- Interface `ChangePasswordData`. -/
structure ChangePasswordData where
  currentPassword : List Nat
  newPassword : List Nat

/-- The `{ success, message }` result shape. -/
structure SimpleResult where
  success : Bool
  message : List Nat
  deriving DecidableEq, Repr

/-- Interface `LoginResult`. -/
structure LoginResult where
  success : Bool
  message : List Nat
  sessionToken : Option (List Nat)
  user : Option AuthUser
  deriving DecidableEq, Repr

/-- The `{ valid, user? }` result shape of `validateSession`. -/
structure ValidateResult where
  valid : Bool
  user : Option AuthUser
  deriving DecidableEq, Repr

/-- `isSetupComplete` (`auth.ts:39-43`): `SELECT id FROM auth_user WHERE id = 1`. -/
def isSetupComplete (db : AuthDb) : Bool :=
  (db.users.find? fun r => r.id == 1).isSome

/-- One day in milliseconds; `expiresAt.setDate(getDate() + days)` is modelled
as adding whole days (calendar-length subtleties do not matter to the claims). -/
def dayMillis : Nat := 86400000

/-- `createUser` (`auth.ts:46-84`).  The `!data.username` truthiness check is
subsumed by the length check (an empty string has length 0 < 3), likewise for
the password. -/
def createUser (db : AuthDb) (data : SetupData) (now : Nat) : SimpleResult × AuthDb :=
  if isSetupComplete db then
    ({ success := false, message := str "User already exists" }, db)
  else if data.username.length < 3 then
    ({ success := false, message := str "Username must be at least 3 characters" }, db)
  else if data.password.length < 6 then
    ({ success := false, message := str "Password must be at least 6 characters" }, db)
  else
    let passwordHash := bcryptHash data.password
    ({ success := true, message := str "Account created successfully" },
     { db with
        users := db.users ++
          [{ id := 1, username := jsTrim (jsToLower data.username),
             password_hash := passwordHash, created_at := now, last_login := none }] })

/-- `login` (`auth.ts:87-152`).  `now` is the clock reading, `newToken` the
value `uuidv4()` would produce. -/
def login (cfg : AppConfig) (db : AuthDb) (data : LoginData) (now : Nat)
    (newToken : List Nat) : LoginResult × AuthDb :=
  match db.users.find? fun r => r.id == 1 with
  | none =>
      ({ success := false,
         message := str "No account exists. Please set up your account first.",
         sessionToken := none, user := none }, db)
  | some user =>
      if bcryptCompare data.password user.password_hash = false then
        ({ success := false, message := str "Invalid password",
           sessionToken := none, user := none }, db)
      else if jsToLower user.username ≠ jsTrim (jsToLower data.username) then
        ({ success := false, message := str "Invalid username",
           sessionToken := none, user := none }, db)
      else
        let db1 : AuthDb :=
          { db with users := db.users.map fun r =>
              if r.id == 1 then { r with last_login := some now } else r }
        if data.rememberMe && cfg.rememberMeEnabled then
          let expiresAt := now + cfg.sessionExpiryDays * dayMillis
          let db2 : AuthDb :=
            { db1 with sessions :=
                (db1.sessions.filter fun s => s.user_id ≠ 1) ++
                  [{ id := newToken, user_id := 1, created_at := now,
                     expires_at := expiresAt }] }
          ({ success := true, message := str "Login successful",
             sessionToken := some newToken,
             user := some { id := user.id, username := user.username,
                            created_at := user.created_at,
                            last_login := user.last_login } }, db2)
        else
          ({ success := true, message := str "Login successful",
             sessionToken := none,
             user := some { id := user.id, username := user.username,
                            created_at := user.created_at,
                            last_login := user.last_login } }, db1)

/-- `logout` (`auth.ts:155-167`). -/
def logout (db : AuthDb) (sessionToken : Option (List Nat)) : SimpleResult × AuthDb :=
  match sessionToken with
  | some tok =>
      ({ success := true, message := str "Logged out successfully" },
       { db with sessions := db.sessions.filter fun s => s.id ≠ tok })
  | none => ({ success := true, message := str "Logged out successfully" }, db)

/-- `validateSession` (`auth.ts:170-217`).  The SQL join is modelled by the
session lookup followed by the user lookup on `s.user_id = u.id`. -/
def validateSession (db : AuthDb) (sessionToken : List Nat) (now : Nat) :
    ValidateResult × AuthDb :=
  match db.sessions.find? fun s => s.id == sessionToken with
  | none => ({ valid := false, user := none }, db)
  | some session =>
      match db.users.find? fun u => u.id == session.user_id with
      | none => ({ valid := false, user := none }, db)
      | some u =>
          if session.expires_at < now then
            ({ valid := false, user := none },
             { db with sessions := db.sessions.filter fun s => s.id ≠ sessionToken })
          else
            ({ valid := true,
               user := some { id := u.id, username := u.username,
                              created_at := u.created_at,
                              last_login := u.last_login } }, db)

/-- `changePassword` (`auth.ts:220-262`). -/
def changePassword (db : AuthDb) (data : ChangePasswordData) : SimpleResult × AuthDb :=
  match db.users.find? fun r => r.id == 1 with
  | none => ({ success := false, message := str "No account exists" }, db)
  | some user =>
      if bcryptCompare data.currentPassword user.password_hash = false then
        ({ success := false, message := str "Current password is incorrect" }, db)
      else if data.newPassword.length < 6 then
        ({ success := false, message := str "New password must be at least 6 characters" }, db)
      else
        ({ success := true, message := str "Password changed successfully" },
         { db with
            users := db.users.map fun r =>
              if r.id == 1 then { r with password_hash := bcryptHash data.newPassword } else r,
            sessions := db.sessions.filter fun s => s.user_id ≠ 1 })

/-- `cleanupExpiredSessions` (`auth.ts:265-278`):
`DELETE FROM auth_sessions WHERE expires_at < datetime('now')`. -/
def cleanupExpiredSessions (db : AuthDb) (now : Nat) : AuthDb :=
  { db with sessions := db.sessions.filter fun s => ¬ s.expires_at < now }

/-- One call into the auth subsystem, with its external inputs (clock
reading, generated token). -/
inductive AuthOp where
  | opCreateUser (data : SetupData) (now : Nat)
  | opLogin (data : LoginData) (now : Nat) (newToken : List Nat)
  | opLogout (sessionToken : Option (List Nat))
  | opValidateSession (sessionToken : List Nat) (now : Nat)
  | opChangePassword (data : ChangePasswordData)
  | opCleanupExpiredSessions (now : Nat)

/-- The state transition of one auth operation. -/
def applyOp (cfg : AppConfig) (db : AuthDb) : AuthOp → AuthDb
  | AuthOp.opCreateUser data now => (createUser db data now).2
  | AuthOp.opLogin data now newToken => (login cfg db data now newToken).2
  | AuthOp.opLogout sessionToken => (logout db sessionToken).2
  | AuthOp.opValidateSession sessionToken now => (validateSession db sessionToken now).2
  | AuthOp.opChangePassword data => (changePassword db data).2
  | AuthOp.opCleanupExpiredSessions now => cleanupExpiredSessions db now

/-- A sequence of auth operations. -/
def applyOps (cfg : AppConfig) (db : AuthDb) (ops : List AuthOp) : AuthDb :=
  ops.foldl (applyOp cfg) db

/-- Eight clock readings one second apart inside one UTC hour. -/
def c2dates : List DateTime :=
  [⟨2024, 5, 6, 10, 0, 0, 0⟩, ⟨2024, 5, 6, 10, 0, 1, 0⟩, ⟨2024, 5, 6, 10, 0, 2, 0⟩,
   ⟨2024, 5, 6, 10, 0, 3, 0⟩, ⟨2024, 5, 6, 10, 0, 4, 0⟩, ⟨2024, 5, 6, 10, 0, 5, 0⟩,
   ⟨2024, 5, 6, 10, 0, 6, 0⟩, ⟨2024, 5, 6, 10, 0, 7, 0⟩]

/-- Eight clock readings in eight distinct UTC hours of one day. -/
def c2hours : List DateTime :=
  [⟨2024, 5, 6, 0, 0, 0, 0⟩, ⟨2024, 5, 6, 1, 0, 0, 0⟩, ⟨2024, 5, 6, 2, 0, 0, 0⟩,
   ⟨2024, 5, 6, 3, 0, 0, 0⟩, ⟨2024, 5, 6, 4, 0, 0, 0⟩, ⟨2024, 5, 6, 5, 0, 0, 0⟩,
   ⟨2024, 5, 6, 6, 0, 0, 0⟩, ⟨2024, 5, 6, 7, 0, 0, 0⟩]

/-- The provisioned user row used by concrete auth scenarios. -/
def aliceRow : AuthUserRow :=
  { id := 1, username := str "alice", password_hash := bcryptHash (str "secret1"),
    created_at := 0, last_login := none }

/-- A database holding the provisioned user and one remembered session that
expires at instant 100. -/
def aliceDb : AuthDb :=
  { users := [aliceRow],
    sessions := [{ id := str "tok-1", user_id := 1, created_at := 0, expires_at := 100 }] }

theorem validateSession_none {db : AuthDb} {tok : List Nat} {now : Nat}
    (h : (db.sessions.find? fun r => r.id == tok) = none) :
    (validateSession db tok now).1.valid = false := by
  unfold validateSession
  rw [h]

theorem digitCode_ge (n : Nat) : 48 ≤ digitCode n := by unfold digitCode; omega

theorem digitCode_lt (n : Nat) : digitCode n < 58 := by unfold digitCode; omega

theorem replaceColonDot_digit (n : Nat) :
    (if digitCode n = 58 ∨ digitCode n = 46 then 45 else digitCode n) = digitCode n := by
  rw [if_neg]; unfold digitCode; omega

theorem replaceColonDot_toISOString (d : DateTime) :
    replaceColonDot (toISOString d) =
      pad4 d.year ++ 45 :: pad2 d.month ++ 45 :: pad2 d.day ++ 84 :: pad2 d.hour ++
        45 :: pad2 d.minute ++ 45 :: pad2 d.second ++ 45 :: pad3 d.millis ++ [90] := by
  simp only [toISOString, replaceColonDot, pad4, pad3, pad2, List.map_append, List.map_cons,
    List.map_nil, replaceColonDot_digit]
  norm_num

theorem takeWhile_all {p : Nat → Bool} {B : List Nat} (h : ∀ b ∈ B, p b = true) :
    B.takeWhile p = B := by
  induction B with
  | nil => rfl
  | cons b B ih =>
      rw [List.takeWhile_cons_of_pos (h b (by simp))]
      exact congrArg (b :: ·) (ih fun x hx => h x (by simp [hx]))

theorem splitHead_eq {sep : Nat} {A B : List Nat} (hA : ∀ a ∈ A, a ≠ sep) :
    splitHead sep (A ++ sep :: B) = A := by
  unfold splitHead
  induction A with
  | nil => simp
  | cons a A ih =>
      rw [List.cons_append, List.takeWhile_cons_of_pos (by simp [hA a (by simp)])]
      exact congrArg (a :: ·) (ih fun x hx => hA x (by simp [hx]))

theorem dropWhile_all_append {p : Nat → Bool} {A B : List Nat} (h : ∀ a ∈ A, p a = true) :
    (A ++ B).dropWhile p = B.dropWhile p := by
  induction A with
  | nil => rfl
  | cons a A ih =>
      rw [List.cons_append, List.dropWhile_cons_of_pos (h a (by simp))]
      exact ih fun x hx => h x (by simp [hx])

theorem splitSecond_eq {sep : Nat} {A B : List Nat} (hA : ∀ a ∈ A, a ≠ sep)
    (hB : ∀ b ∈ B, b ≠ sep) : splitSecond sep (A ++ sep :: B) = B := by
  unfold splitSecond
  rw [dropWhile_all_append (p := fun c => c ≠ sep) (fun a ha => by simp [hA a ha]),
    List.dropWhile_cons_of_neg (by simp)]
  simpa using takeWhile_all (p := fun c => c ≠ sep) fun b hb => by simp [hB b hb]

theorem backupDateToken_eq (d : DateTime) :
    backupDateToken d = pad4 d.year ++ 45 :: pad2 d.month ++ 45 :: pad2 d.day := by
  unfold backupDateToken
  rw [replaceColonDot_toISOString,
    show pad4 d.year ++ 45 :: pad2 d.month ++ 45 :: pad2 d.day ++ 84 :: pad2 d.hour ++
        45 :: pad2 d.minute ++ 45 :: pad2 d.second ++ 45 :: pad3 d.millis ++ [90] =
      (pad4 d.year ++ 45 :: pad2 d.month ++ 45 :: pad2 d.day) ++ 84 ::
        (pad2 d.hour ++ 45 :: pad2 d.minute ++ 45 :: pad2 d.second ++
          45 :: pad3 d.millis ++ [90]) by simp]
  exact splitHead_eq fun a ha => by
    simp only [pad4, pad2, digitCode, List.mem_append, List.mem_cons,
      List.not_mem_nil, or_false] at ha
    omega

theorem backupTimeToken_eq (d : DateTime) : backupTimeToken d = pad2 d.hour := by
  unfold backupTimeToken
  rw [replaceColonDot_toISOString,
    show pad4 d.year ++ 45 :: pad2 d.month ++ 45 :: pad2 d.day ++ 84 :: pad2 d.hour ++
        45 :: pad2 d.minute ++ 45 :: pad2 d.second ++ 45 :: pad3 d.millis ++ [90] =
      (pad4 d.year ++ 45 :: pad2 d.month ++ 45 :: pad2 d.day) ++ 84 ::
        (pad2 d.hour ++ 45 :: (pad2 d.minute ++ 45 :: pad2 d.second ++
          45 :: pad3 d.millis ++ [90])) by simp]
  rw [splitSecond_eq (B := pad2 d.hour ++ 45 :: (pad2 d.minute ++ 45 :: pad2 d.second ++
      45 :: pad3 d.millis ++ [90]))
    (fun a ha => by
      simp only [pad4, pad2, digitCode, List.mem_append, List.mem_cons,
        List.not_mem_nil, or_false] at ha
      omega)
    (fun b hb => by
      simp only [pad4, pad3, pad2, digitCode, List.mem_append, List.mem_cons,
        List.not_mem_nil, or_false] at hb
      omega)]
  exact splitHead_eq fun a ha => by
    simp only [pad2, digitCode, List.mem_cons, List.not_mem_nil, or_false] at ha
    omega

theorem backupFileName_eq (cfg : AppConfig) (d : DateTime) :
    backupFileName cfg d = cfg.backupPrefix ++ 95 :: pad4 d.year ++ 45 :: pad2 d.month ++
      45 :: pad2 d.day ++ 95 :: pad2 d.hour ++ str ".db" := by
  unfold backupFileName
  rw [backupDateToken_eq, backupTimeToken_eq]
  simp

theorem pad2_inj {m n : Nat} (hm : m < 100) (hn : n < 100) (h : pad2 m = pad2 n) : m = n := by
  simp only [pad2, digitCode, List.cons.injEq, and_true] at h
  omega

theorem pad4_inj {m n : Nat} (hm : m < 10000) (hn : n < 10000) (h : pad4 m = pad4 n) :
    m = n := by
  simp only [pad4, digitCode, List.cons.injEq, and_true] at h
  omega

theorem backupFileName_inj {cfg : AppConfig} {d e : DateTime} (hd : d.Valid) (he : e.Valid)
    (h : backupFileName cfg d = backupFileName cfg e) :
    d.year = e.year ∧ d.month = e.month ∧ d.day = e.day ∧ d.hour = e.hour := by
  obtain ⟨hdy, hdm1, hdm2, hdd1, hdd2, hdh, -⟩ := hd
  obtain ⟨hey, hem1, hem2, hed1, hed2, heh, -⟩ := he
  rw [backupFileName_eq, backupFileName_eq] at h
  simp only [pad4, pad2, digitCode, List.cons_append, List.nil_append, List.append_assoc,
    List.append_cancel_left_eq, List.cons.injEq, and_true, true_and] at h
  refine ⟨?_, ?_, ?_, ?_⟩ <;> omega

theorem isBackupName_backupFileName (cfg : AppConfig) (d : DateTime) :
    isBackupName cfg (backupFileName cfg d) = true := by
  have hshape : backupFileName cfg d =
      (cfg.backupPrefix ++ 95 :: backupDateToken d ++ 95 :: backupTimeToken d) ++ str ".db" := by
    unfold backupFileName; simp
  unfold isBackupName
  rw [Bool.and_eq_true, List.isPrefixOf_iff_prefix, List.isSuffixOf_iff_suffix]
  constructor
  · unfold backupFileName
    simp only [List.append_assoc]
    exact List.prefix_append _ _
  · rw [hshape]; exact List.suffix_append _ _

/-- C1 counterexample: two clock readings in the same UTC hour but in
different clock-seconds derive the very same backup file name, and that name
carries only the hour (`app-backup_2024-05-06_10.db`), not an `HHMMSS` time. -/
theorem c1_counterexample :
    backupFileName appConfig ⟨2024, 5, 6, 10, 30, 45, 123⟩ =
        backupFileName appConfig ⟨2024, 5, 6, 10, 30, 46, 999⟩ ∧
    backupFileName appConfig ⟨2024, 5, 6, 10, 30, 45, 123⟩ =
        str "app-backup_2024-05-06_10.db" :=
  ⟨by decide, by decide⟩

/-- C1 as amended: every successful createBackup derives a file name of the
form `<prefix>_<YYYY-MM-DD>_<HH>.db` — the time component carries only the
hour — and two snapshots derive distinct file names whenever their (valid)
clock readings differ in UTC year, month, day or hour. -/
theorem c1_filename_hour_precision :
    (∀ (cfg : AppConfig) (d : DateTime),
      backupFileName cfg d = cfg.backupPrefix ++ 95 :: pad4 d.year ++ 45 :: pad2 d.month ++
        45 :: pad2 d.day ++ 95 :: pad2 d.hour ++ str ".db") ∧
    (∀ (cfg : AppConfig) (d e : DateTime), d.Valid → e.Valid →
      ¬(d.year = e.year ∧ d.month = e.month ∧ d.day = e.day ∧ d.hour = e.hour) →
      backupFileName cfg d ≠ backupFileName cfg e) :=
  ⟨backupFileName_eq, fun _ _ _ hd he hne h => hne (backupFileName_inj hd he h)⟩

/-- C1 witness: the amended theorem applied at two concrete readings an hour
apart. -/
theorem c1_filename_hour_precision_witness :
    backupFileName appConfig ⟨2024, 5, 6, 10, 0, 0, 0⟩ ≠
      backupFileName appConfig ⟨2024, 5, 6, 11, 0, 0, 0⟩ :=
  c1_filename_hour_precision.2 appConfig _ _ (by decide) (by decide) (by decide)

theorem mem_cleanupOldBackups_of_not_backup {cfg : AppConfig} {dir : List BackupFile}
    {f : BackupFile} (hf : f ∈ dir) (hm : isBackupName cfg f.name = false) :
    f ∈ cleanupOldBackups cfg dir := by
  by_cases hlen : ((backupsIn cfg dir).insertionSort timeDesc).length > cfg.maxBackups
  · simp only [cleanupOldBackups, if_pos hlen]
    rw [List.mem_filter]
    refine ⟨hf, ?_⟩
    rw [List.all_eq_true]
    intro g hg
    have hg2 : g ∈ backupsIn cfg dir := by
      have hgs := List.drop_subset _ _ hg
      rwa [List.mem_insertionSort] at hgs
    have hgB : isBackupName cfg g.name = true := (List.mem_filter.mp hg2).2
    simp only [ne_eq, decide_eq_true_eq]
    intro hEq
    rw [hEq, hm] at hgB
    exact Bool.false_ne_true hgB
  · simp only [cleanupOldBackups, if_neg hlen]
    exact hf

/-- C8 (confirmed): retention pruning never touches a file whose name does
not match the configured prefix and the `.db` extension: such a file is still
present, unchanged, after `cleanupOldBackups`; equivalently, every file the
pruning removes was enumerated by it as a prefix+extension match. -/
theorem c8_prune_frame (cfg : AppConfig) (dir : List BackupFile) (f : BackupFile)
    (hf : f ∈ dir) :
    (isBackupName cfg f.name = false → f ∈ cleanupOldBackups cfg dir) ∧
    (f ∉ cleanupOldBackups cfg dir → isBackupName cfg f.name = true) := by
  constructor
  · exact fun hm => mem_cleanupOldBackups_of_not_backup hf hm
  · intro hout
    cases hB : isBackupName cfg f.name with
    | false => exact absurd (mem_cleanupOldBackups_of_not_backup hf hB) hout
    | true => rfl

/-- C8 witness: the theorem applied to a directory holding a non-matching
file next to a matching one. -/
theorem c8_prune_frame_witness :
    (⟨str "notes.txt", 0⟩ : BackupFile) ∈ cleanupOldBackups appConfig
      [⟨str "notes.txt", 0⟩, ⟨str "app-backup_2024-05-06_10.db", 5⟩] :=
  (c8_prune_frame appConfig
    [⟨str "notes.txt", 0⟩, ⟨str "app-backup_2024-05-06_10.db", 5⟩]
    ⟨str "notes.txt", 0⟩ (by decide)).1 (by decide)

/-- C9 counterexample: the cancelled outcome of createManualBackup carries
`success = false`, exactly the shape of a genuine failure (missing database
file, or a throwing copy): cancellation is folded into the generic failure
shape and is distinct only in its message string. -/
theorem c9_counterexample :
    (createManualBackup ⟨true, []⟩ ⟨true, none⟩ CopyOutcome.ok).1.success = false ∧
    (createManualBackup ⟨false, []⟩ ⟨false, some (str "out.db")⟩ CopyOutcome.ok).1.success
      = false ∧
    (createManualBackup ⟨true, []⟩ ⟨false, some (str "out.db")⟩
        (CopyOutcome.throws (str "disk full"))).1.success = false :=
  ⟨by decide, by decide, by decide⟩

/-- C9 as amended: when the user cancels the destination prompt,
createManualBackup returns the generic failure shape `success = false` but
with the fixed message "Backup cancelled", which differs from the message of
every genuine failure ("Database file not found" and every
"Backup failed: ..." message), so a caller can recognise cancellation only by
that message string; and no file is written. -/
theorem c9_cancel_outcome (st : BackupState) (dialogResult : SaveDialogResult)
    (copy : CopyOutcome) (hdb : st.dbExists = true)
    (hcancel : dialogResult.canceled = true ∨ jsFalsyPath dialogResult.filePath = true) :
    (createManualBackup st dialogResult copy).1 =
        { success := false, message := str "Backup cancelled" } ∧
    (createManualBackup st dialogResult copy).2 = none ∧
    (∀ e, str "Backup cancelled" ≠ str "Backup failed: " ++ e) ∧
    str "Backup cancelled" ≠ str "Database file not found" := by
  have hcond : (dialogResult.canceled || jsFalsyPath dialogResult.filePath) = true := by
    rcases hcancel with h | h <;> simp [h]
  refine ⟨?_, ?_, ?_, by decide⟩
  · simp [createManualBackup, hdb, hcond]
  · simp [createManualBackup, hdb, hcond]
  · intro e h
    have h15 : (str "Backup cancelled").take 15 = str "Backup failed: " := by
      rw [h, show (15 : Nat) = (str "Backup failed: ").length from by decide,
        List.take_left]
    exact absurd h15 (by decide)

/-- C9 witness: the amended theorem applied to a concrete cancelled dialog. -/
theorem c9_cancel_outcome_witness :
    (createManualBackup ⟨true, []⟩ ⟨true, none⟩ CopyOutcome.ok).1 =
        { success := false, message := str "Backup cancelled" } ∧
    (createManualBackup ⟨true, []⟩ ⟨true, none⟩ CopyOutcome.ok).2 = none :=
  ⟨(c9_cancel_outcome ⟨true, []⟩ ⟨true, none⟩ CopyOutcome.ok rfl (Or.inl rfl)).1,
   (c9_cancel_outcome ⟨true, []⟩ ⟨true, none⟩ CopyOutcome.ok rfl (Or.inl rfl)).2.1⟩


theorem filter_backupsIn_comm (cfg : AppConfig) (dir : List BackupFile)
    (p : BackupFile → Bool) :
    backupsIn cfg (dir.filter p) = (backupsIn cfg dir).filter p := by
  unfold backupsIn
  rw [List.filter_filter, List.filter_filter]
  exact List.filter_congr fun x _ => Bool.and_comm _ _

theorem filter_keep_eq_take {K : Nat} {m D : List BackupFile} (hD : D = m.drop K)
    (hnames : m.Pairwise fun a b => a.name ≠ b.name) :
    (m.filter fun f => D.all fun g => g.name ≠ f.name) = m.take K := by
  conv_lhs => rw [← List.take_append_drop K m]
  rw [List.filter_append]
  have h1 : (m.take K).filter (fun f => D.all fun g => g.name ≠ f.name) = m.take K := by
    rw [List.filter_eq_self]
    intro f hfm
    rw [List.all_eq_true]
    intro g hg
    have := List.Sorted.rel_of_mem_take_of_mem_drop hnames hfm (hD ▸ hg)
    simpa using this.symm
  have h2 : (m.drop K).filter (fun f => D.all fun g => g.name ≠ f.name) = [] := by
    rw [List.filter_eq_nil_iff]
    intro f hfm hall
    rw [List.all_eq_true] at hall
    have := hall f (hD ▸ hfm)
    simp at this
  rw [h1, h2, List.append_nil]

theorem length_filter_keep_le {K : Nat} {L D : List BackupFile} (hD : D = L.drop K) :
    (L.filter fun f => D.all fun g => g.name ≠ f.name).length ≤ K := by
  conv_lhs => rw [← List.take_append_drop K L]
  rw [List.filter_append]
  have h2 : (L.drop K).filter (fun f => D.all fun g => g.name ≠ f.name) = [] := by
    rw [List.filter_eq_nil_iff]
    intro f hfm hall
    rw [List.all_eq_true] at hall
    have := hall f (hD ▸ hfm)
    simp at this
  rw [h2, List.append_nil]
  calc ((L.take K).filter fun f => D.all fun g => g.name ≠ f.name).length
      ≤ (L.take K).length := List.length_filter_le _ _
    _ ≤ K := by rw [List.length_take]; omega

theorem backupsIn_cleanup_of_sorted {cfg : AppConfig} {dir : List BackupFile}
    (hsort : (backupsIn cfg dir).Pairwise timeDesc)
    (hnames : (backupsIn cfg dir).Pairwise fun a b => a.name ≠ b.name) :
    backupsIn cfg (cleanupOldBackups cfg dir) = (backupsIn cfg dir).take cfg.maxBackups := by
  have hms : (backupsIn cfg dir).insertionSort timeDesc = backupsIn cfg dir :=
    List.Sorted.insertionSort_eq hsort
  by_cases hlen : ((backupsIn cfg dir).insertionSort timeDesc).length > cfg.maxBackups
  · simp only [cleanupOldBackups, if_pos hlen]
    rw [filter_backupsIn_comm]
    exact filter_keep_eq_take (by rw [hms]) hnames
  · simp only [cleanupOldBackups, if_neg hlen]
    rw [List.length_insertionSort] at hlen
    rw [List.take_of_length_le (by omega)]

theorem length_backupsIn_cleanup (cfg : AppConfig) (dir : List BackupFile) :
    (backupsIn cfg (cleanupOldBackups cfg dir)).length ≤ cfg.maxBackups := by
  by_cases hlen : ((backupsIn cfg dir).insertionSort timeDesc).length > cfg.maxBackups
  · simp only [cleanupOldBackups, if_pos hlen]
    rw [filter_backupsIn_comm]
    have hperm : List.Perm (backupsIn cfg dir) ((backupsIn cfg dir).insertionSort timeDesc) :=
      (List.perm_insertionSort timeDesc (backupsIn cfg dir)).symm
    rw [(List.Perm.filter _ hperm).length_eq]
    exact length_filter_keep_le rfl
  · simp only [cleanupOldBackups, if_neg hlen]
    rw [List.length_insertionSort] at hlen
    omega

theorem backupsIn_writeFile {cfg : AppConfig} {dir : List BackupFile} {d : DateTime}
    (hname : ∀ g ∈ backupsIn cfg dir, g.name ≠ backupFileName cfg d) :
    backupsIn cfg (writeFile dir (backupFileName cfg d) d.key) =
      ⟨backupFileName cfg d, d.key⟩ :: backupsIn cfg dir := by
  unfold writeFile backupsIn
  have hpos : (fun f : BackupFile => isBackupName cfg f.name)
      ⟨backupFileName cfg d, d.key⟩ = true := isBackupName_backupFileName cfg d
  rw [List.filter_cons_of_pos (p := fun f : BackupFile => isBackupName cfg f.name) hpos]
  congr 1
  have hcomm := filter_backupsIn_comm cfg dir fun f => f.name ≠ backupFileName cfg d
  unfold backupsIn at hcomm
  rw [hcomm, List.filter_eq_self]
  intro g hg
  have := hname g (by unfold backupsIn; exact hg)
  simpa using this

theorem createBackup_step {cfg : AppConfig} {st : BackupState} {d : DateTime}
    (hdb : st.dbExists = true)
    (hsortlt : (backupsIn cfg st.dir).Pairwise fun a b => b.time < a.time)
    (hnames : (backupsIn cfg st.dir).Pairwise fun a b => a.name ≠ b.name)
    (htime : ∀ g ∈ backupsIn cfg st.dir, g.time < d.key)
    (hname : ∀ g ∈ backupsIn cfg st.dir, g.name ≠ backupFileName cfg d) :
    (createBackup cfg d st).2.dbExists = true ∧
    backupsIn cfg (createBackup cfg d st).2.dir =
      ((⟨backupFileName cfg d, d.key⟩ : BackupFile) :: backupsIn cfg st.dir).take
        cfg.maxBackups := by
  have hw := backupsIn_writeFile hname
  have hsort2 : (backupsIn cfg (writeFile st.dir (backupFileName cfg d) d.key)).Pairwise
      timeDesc := by
    rw [hw, List.pairwise_cons]
    exact ⟨fun g hg => Nat.le_of_lt (htime g hg), hsortlt.imp fun h => Nat.le_of_lt h⟩
  have hnames2 : (backupsIn cfg (writeFile st.dir (backupFileName cfg d) d.key)).Pairwise
      fun a b => a.name ≠ b.name := by
    rw [hw, List.pairwise_cons]
    exact ⟨fun g hg => (hname g hg).symm, hnames⟩
  constructor
  · simp [createBackup, hdb]
  · have hdir : (createBackup cfg d st).2.dir =
        cleanupOldBackups cfg (writeFile st.dir (backupFileName cfg d) d.key) := by
      simp [createBackup, hdb]
    rw [hdir, backupsIn_cleanup_of_sorted hsort2 hnames2, hw]

theorem take_append_take {α : Type} (K : Nat) (A l : List α) :
    (A ++ l.take K).take K = (A ++ l).take K := by
  rw [List.take_append_eq_append_take, List.take_append_eq_append_take, List.take_take,
    Nat.min_eq_left (Nat.sub_le _ _)]

theorem runBackups_characterization {cfg : AppConfig} :
    ∀ (ds : List DateTime) (st : BackupState),
      st.dbExists = true →
      (backupsIn cfg st.dir).Pairwise (fun a b => b.time < a.time) →
      (backupsIn cfg st.dir).Pairwise (fun a b => a.name ≠ b.name) →
      (backupsIn cfg st.dir).length ≤ cfg.maxBackups →
      (∀ g ∈ backupsIn cfg st.dir, ∀ e ∈ ds,
        g.time < e.key ∧ g.name ≠ backupFileName cfg e) →
      ds.Pairwise (fun a b => a.key < b.key ∧ backupFileName cfg a ≠ backupFileName cfg b) →
      backupsIn cfg (runBackups cfg ds st).dir =
        ((ds.map fun e => (⟨backupFileName cfg e, e.key⟩ : BackupFile)).reverse ++
          backupsIn cfg st.dir).take cfg.maxBackups := by
  intro ds
  induction ds with
  | nil =>
      intro st _ _ _ hlen _ _
      simp only [runBackups, List.foldl_nil, List.map_nil, List.reverse_nil, List.nil_append]
      rw [List.take_of_length_le hlen]
  | cons d rest ih =>
      intro st hdb hsort hnames hlen hall hds
      obtain ⟨hdrel, hdsrest⟩ := List.pairwise_cons.mp hds
      obtain ⟨hdb1, hm1⟩ := createBackup_step hdb hsort hnames
        (fun g hg => (hall g hg d (by simp)).1) (fun g hg => (hall g hg d (by simp)).2)
      have hrun : runBackups cfg (d :: rest) st =
          runBackups cfg rest (createBackup cfg d st).2 := rfl
      rw [hrun]
      have hall1 : ∀ g ∈ backupsIn cfg (createBackup cfg d st).2.dir, ∀ e ∈ rest,
          g.time < e.key ∧ g.name ≠ backupFileName cfg e := by
        rw [hm1]
        intro g hg e he
        have hg2 := List.take_subset _ _ hg
        rcases List.mem_cons.mp hg2 with h | h
        · subst h
          exact ⟨(hdrel e he).1, (hdrel e he).2⟩
        · exact ⟨(hall g h e (by simp [he])).1, (hall g h e (by simp [he])).2⟩
      have hx_sort : ((⟨backupFileName cfg d, d.key⟩ : BackupFile) ::
          backupsIn cfg st.dir).Pairwise (fun a b => b.time < a.time) := by
        rw [List.pairwise_cons]
        exact ⟨fun g hg => (hall g hg d (by simp)).1, hsort⟩
      have hx_names : ((⟨backupFileName cfg d, d.key⟩ : BackupFile) ::
          backupsIn cfg st.dir).Pairwise (fun a b => a.name ≠ b.name) := by
        rw [List.pairwise_cons]
        exact ⟨fun g hg => ((hall g hg d (by simp)).2).symm, hnames⟩
      have hrec := ih (createBackup cfg d st).2 hdb1
        (by rw [hm1]; exact List.Pairwise.sublist (List.take_sublist _ _) hx_sort)
        (by rw [hm1]; exact List.Pairwise.sublist (List.take_sublist _ _) hx_names)
        (by rw [hm1, List.length_take]; omega)
        hall1 hdsrest
      rw [hrec, hm1, take_append_take]
      congr 1
      simp [List.append_assoc]

/-- C2 counterexample: with `maxBackups = 7`, eight consecutive `createBackup`
calls at pairwise-distinct, strictly increasing timestamps (one second apart,
within one UTC hour) leave exactly one matching snapshot file, not seven: the
hour-precision file name makes every call overwrite the same file. -/
theorem c2_counterexample :
    c2dates.Pairwise (fun a b => a ≠ b ∧ a.key < b.key) ∧
    c2dates.length = 8 ∧ appConfig.maxBackups = 7 ∧
    (backupsIn appConfig (runBackups appConfig c2dates ⟨true, []⟩).dir).length = 1 :=
  ⟨by decide, by decide, by decide, by decide⟩

/-- C2 as amended: (a) after any successful createBackup call the number of
files matching the configured prefix and `.db` extension is at most
`maxBackups`; (b) after N consecutive createBackup calls at strictly
increasing clock times that derive pairwise-distinct file names (i.e. fall in
pairwise-distinct UTC date-hours), starting from a directory with no matching
files, where N > maxBackups = K, exactly K matching files remain, and they
are those of the K most recent calls. -/
theorem c2_retention :
    (∀ (cfg : AppConfig) (d : DateTime) (st : BackupState),
      ((createBackup cfg d st).1).success = true →
      (backupsIn cfg (createBackup cfg d st).2.dir).length ≤ cfg.maxBackups) ∧
    (∀ (cfg : AppConfig) (ds : List DateTime) (st : BackupState),
      st.dbExists = true →
      backupsIn cfg st.dir = [] →
      ds.Pairwise (fun a b => a.key < b.key ∧ backupFileName cfg a ≠ backupFileName cfg b) →
      cfg.maxBackups < ds.length →
      backupsIn cfg (runBackups cfg ds st).dir =
        ((ds.map fun e => (⟨backupFileName cfg e, e.key⟩ : BackupFile)).reverse).take
          cfg.maxBackups ∧
      (backupsIn cfg (runBackups cfg ds st).dir).length = cfg.maxBackups) := by
  constructor
  · intro cfg d st hsucc
    by_cases hdb : st.dbExists
    · have hdir : (createBackup cfg d st).2.dir =
          cleanupOldBackups cfg (writeFile st.dir (backupFileName cfg d) d.key) := by
        simp [createBackup, hdb]
      rw [hdir]
      exact length_backupsIn_cleanup cfg _
    · simp [createBackup, hdb] at hsucc
  · intro cfg ds st hdb hempty hds hlen
    have hchar := runBackups_characterization ds st hdb
      (by rw [hempty]; exact List.Pairwise.nil)
      (by rw [hempty]; exact List.Pairwise.nil)
      (by rw [hempty]; simp)
      (by rw [hempty]; intro g hg; cases hg)
      hds
    rw [hempty, List.append_nil] at hchar
    refine ⟨hchar, ?_⟩
    rw [hchar, List.length_take, List.length_reverse, List.length_map]
    omega

/-- C2 witness: the amended theorem applied to eight calls in distinct hours
of one day starting from an empty backup directory, and the cap applied to a
concrete call. -/
theorem c2_retention_witness :
    ((backupsIn appConfig (createBackup appConfig ⟨2024, 5, 6, 0, 0, 0, 0⟩
        ⟨true, []⟩).2.dir).length ≤ appConfig.maxBackups) ∧
    backupsIn appConfig (runBackups appConfig c2hours ⟨true, []⟩).dir =
      ((c2hours.map fun e =>
        (⟨backupFileName appConfig e, e.key⟩ : BackupFile)).reverse).take
          appConfig.maxBackups ∧
    (backupsIn appConfig (runBackups appConfig c2hours ⟨true, []⟩).dir).length =
      appConfig.maxBackups :=
  ⟨c2_retention.1 appConfig ⟨2024, 5, 6, 0, 0, 0, 0⟩ ⟨true, []⟩ (by decide),
   (c2_retention.2 appConfig c2hours ⟨true, []⟩ rfl rfl (by decide) (by decide)).1,
   (c2_retention.2 appConfig c2hours ⟨true, []⟩ rfl rfl (by decide) (by decide)).2⟩

theorem cleanupOldBackups_sublist (cfg : AppConfig) (dir : List BackupFile) :
    List.Sublist (cleanupOldBackups cfg dir) dir := by
  by_cases hlen : ((backupsIn cfg dir).insertionSort timeDesc).length > cfg.maxBackups
  · simp only [cleanupOldBackups, if_pos hlen]
    exact List.filter_sublist _
  · simp only [cleanupOldBackups, if_neg hlen]
    exact List.Sublist.refl _

theorem nodup_names_writeFile {dir : List BackupFile} {n : List Nat} {t : Nat}
    (hnd : (dir.map BackupFile.name).Nodup) :
    ((writeFile dir n t).map BackupFile.name).Nodup := by
  unfold writeFile
  rw [List.map_cons, List.nodup_cons]
  constructor
  · intro hmem
    rw [List.mem_map] at hmem
    obtain ⟨g, hg, hgeq⟩ := hmem
    have := (List.mem_filter.mp hg).2
    simp [hgeq] at this
  · exact List.Nodup.sublist (List.Sublist.map _ (List.filter_sublist _)) hnd

theorem nodup_names_cleanup {cfg : AppConfig} {dir : List BackupFile}
    (hnd : (dir.map BackupFile.name).Nodup) :
    ((cleanupOldBackups cfg dir).map BackupFile.name).Nodup :=
  List.Nodup.sublist (List.Sublist.map _ (cleanupOldBackups_sublist cfg dir)) hnd

theorem mem_cleanupOldBackups_of_newest {cfg : AppConfig} {dir : List BackupFile}
    {f : BackupFile} (hK : 1 ≤ cfg.maxBackups) (hf : f ∈ dir)
    (hfB : isBackupName cfg f.name = true)
    (hnd : (dir.map BackupFile.name).Nodup)
    (hnew : ∀ g ∈ dir, isBackupName cfg g.name = true → g ≠ f → g.time < f.time) :
    f ∈ cleanupOldBackups cfg dir := by
  by_cases hlen : ((backupsIn cfg dir).insertionSort timeDesc).length > cfg.maxBackups
  · simp only [cleanupOldBackups, if_pos hlen]
    rw [List.mem_filter]
    refine ⟨hf, ?_⟩
    rw [List.all_eq_true]
    intro g hg
    have hgL : g ∈ (backupsIn cfg dir).insertionSort timeDesc := List.drop_subset _ _ hg
    have hgB : g ∈ backupsIn cfg dir := by rwa [List.mem_insertionSort] at hgL
    have hgdir : g ∈ dir := (List.mem_filter.mp hgB).1
    simp only [ne_eq, decide_eq_true_eq]
    intro hEq
    have hgf : g = f := List.inj_on_of_nodup_map hnd hgdir hf hEq
    subst hgf
    have hLsort : ((backupsIn cfg dir).insertionSort timeDesc).Pairwise timeDesc :=
      List.sorted_insertionSort timeDesc _
    have htk : ((backupsIn cfg dir).insertionSort timeDesc).take cfg.maxBackups ≠ [] := by
      intro h0
      have := congrArg List.length h0
      rw [List.length_take] at this
      simp only [List.length_nil] at this
      omega
    obtain ⟨g0, hg0⟩ := List.exists_mem_of_ne_nil _ htk
    have hrel : timeDesc g0 g := List.Sorted.rel_of_mem_take_of_mem_drop hLsort hg0 hg
    have hg0L : g0 ∈ (backupsIn cfg dir).insertionSort timeDesc := List.take_subset _ _ hg0
    have hg0B : g0 ∈ backupsIn cfg dir := by rwa [List.mem_insertionSort] at hg0L
    have hg0dir : g0 ∈ dir := (List.mem_filter.mp hg0B).1
    have hg0match : isBackupName cfg g0.name = true := (List.mem_filter.mp hg0B).2
    have hg0f : g0 ≠ g := by
      intro hEq0
      subst hEq0
      have hmn : ((backupsIn cfg dir).map BackupFile.name).Nodup :=
        List.Nodup.sublist (List.Sublist.map _ (List.filter_sublist _)) hnd
      have hbnodup : (backupsIn cfg dir).Nodup := List.Nodup.of_map _ hmn
      have hLnodup : ((backupsIn cfg dir).insertionSort timeDesc).Nodup :=
        ((List.perm_insertionSort timeDesc _).nodup_iff).mpr hbnodup
      rw [← List.take_append_drop cfg.maxBackups
        ((backupsIn cfg dir).insertionSort timeDesc)] at hLnodup
      exact List.disjoint_of_nodup_append hLnodup hg0 hg
    have hlt := hnew g0 hg0dir hg0match hg0f
    unfold timeDesc at hrel
    omega
  · simp only [cleanupOldBackups, if_neg hlen]
    exact hf

theorem length_filter_lt {p : BackupFile → Bool} {l : List BackupFile} {x : BackupFile}
    (hx : x ∈ l) (hpx : p x = false) : (l.filter p).length < l.length := by
  induction l with
  | nil => cases hx
  | cons a t ih =>
      rcases List.mem_cons.mp hx with h | h
      · subst h
        rw [List.filter_cons_of_neg (by rw [hpx]; exact Bool.false_ne_true)]
        have := List.length_filter_le p t
        simp only [List.length_cons]
        omega
      · cases hpa : p a with
        | true =>
            rw [List.filter_cons_of_pos hpa]
            have := ih h
            simp only [List.length_cons]
            omega
        | false =>
            rw [List.filter_cons_of_neg (by rw [hpa]; exact Bool.false_ne_true)]
            have := ih h
            simp only [List.length_cons]
            omega

/-- C10 (confirmed): two createBackup calls whose clock readings fall in the
same UTC date and hour derive the identical backup file path; the second call
succeeds and its copy overwrites the first snapshot file in place (the file
is present after the first call, and after the second call the single file of
that name carries the second call's modification time), so the backup
directory's file count does not increase. -/
theorem c10_same_hour_overwrite (cfg : AppConfig) (st : BackupState) (d1 d2 : DateTime)
    (hdb : st.dbExists = true) (hK : 1 ≤ cfg.maxBackups)
    (hnd : (st.dir.map BackupFile.name).Nodup)
    (hsame : d1.year = d2.year ∧ d1.month = d2.month ∧ d1.day = d2.day ∧ d1.hour = d2.hour)
    (hold : ∀ f ∈ st.dir, isBackupName cfg f.name = true → f.time < d1.key)
    (hkey : d1.key ≤ d2.key) :
    (createBackup cfg d1 st).1.filePath = some (backupFileName cfg d1) ∧
    (createBackup cfg d2 (createBackup cfg d1 st).2).1.filePath =
      some (backupFileName cfg d1) ∧
    (createBackup cfg d2 (createBackup cfg d1 st).2).1.success = true ∧
    (⟨backupFileName cfg d1, d1.key⟩ : BackupFile) ∈ (createBackup cfg d1 st).2.dir ∧
    (⟨backupFileName cfg d1, d2.key⟩ : BackupFile) ∈
      (createBackup cfg d2 (createBackup cfg d1 st).2).2.dir ∧
    (createBackup cfg d2 (createBackup cfg d1 st).2).2.dir.length ≤
      (createBackup cfg d1 st).2.dir.length := by
  have hname12 : backupFileName cfg d2 = backupFileName cfg d1 := by
    rw [backupFileName_eq, backupFileName_eq, hsame.1, hsame.2.1, hsame.2.2.1, hsame.2.2.2]
  have hfp1 : (createBackup cfg d1 st).1.filePath = some (backupFileName cfg d1) := by
    simp [createBackup, hdb]
  set st1 : BackupState := (createBackup cfg d1 st).2 with hst1
  have hdir1 : st1.dir =
      cleanupOldBackups cfg (writeFile st.dir (backupFileName cfg d1) d1.key) := by
    rw [hst1]; simp [createBackup, hdb]
  have hdb1 : st1.dbExists = true := by
    rw [hst1]; simp [createBackup, hdb]
  have hnd1' : ((writeFile st.dir (backupFileName cfg d1) d1.key).map
      BackupFile.name).Nodup := nodup_names_writeFile hnd
  have hnd1 : (st1.dir.map BackupFile.name).Nodup := by
    rw [hdir1]; exact nodup_names_cleanup hnd1'
  have hf1 : (⟨backupFileName cfg d1, d1.key⟩ : BackupFile) ∈ st1.dir := by
    rw [hdir1]
    apply mem_cleanupOldBackups_of_newest hK (List.mem_cons_self _ _)
      (isBackupName_backupFileName cfg d1) hnd1'
    intro g hg hgB hgne
    rcases List.mem_cons.mp hg with h | h
    · exact absurd h hgne
    · exact hold g (List.mem_filter.mp h).1 hgB
  have hmemdir1 : ∀ g ∈ st1.dir,
      g.name ≠ backupFileName cfg d1 → isBackupName cfg g.name = true →
      g.time < d1.key := by
    intro g hg hgn hgB
    rw [hdir1] at hg
    have hg2 := (cleanupOldBackups_sublist cfg _).subset hg
    rcases List.mem_cons.mp hg2 with h | h
    · exact absurd (congrArg BackupFile.name h) hgn
    · exact hold g (List.mem_filter.mp h).1 hgB
  have hdir2 : (createBackup cfg d2 st1).2.dir =
      cleanupOldBackups cfg (writeFile st1.dir (backupFileName cfg d1) d2.key) := by
    simp [createBackup, hdb1, hname12]
  refine ⟨hfp1, by simp [createBackup, hdb1, hname12],
    by simp [createBackup, hdb1], hf1, ?_, ?_⟩
  · rw [hdir2]
    apply mem_cleanupOldBackups_of_newest hK (List.mem_cons_self _ _)
      (isBackupName_backupFileName cfg d1) (nodup_names_writeFile hnd1)
    intro g hg hgB hgne
    rcases List.mem_cons.mp hg with h | h
    · exact absurd h hgne
    · have hgn : g.name ≠ backupFileName cfg d1 :=
        of_decide_eq_true (List.mem_filter.mp h).2
      have := hmemdir1 g (List.mem_filter.mp h).1 hgn hgB
      show g.time < d2.key
      omega
  · rw [hdir2]
    calc (cleanupOldBackups cfg (writeFile st1.dir (backupFileName cfg d1) d2.key)).length
        ≤ (writeFile st1.dir (backupFileName cfg d1) d2.key).length :=
          (cleanupOldBackups_sublist cfg _).length_le
      _ = (st1.dir.filter fun f => f.name ≠ backupFileName cfg d1).length + 1 := by
          unfold writeFile; rw [List.length_cons]
      _ ≤ st1.dir.length := by
          have hlt := length_filter_lt (p := fun f => f.name ≠ backupFileName cfg d1)
            hf1 (by simp)
          omega

/-- C10 witness: the theorem applied to two concrete readings half an hour
apart within the same UTC hour, starting from an empty directory. -/
theorem c10_same_hour_overwrite_witness :
    (createBackup appConfig ⟨2024, 5, 6, 10, 0, 0, 0⟩ ⟨true, []⟩).1.filePath =
      some (backupFileName appConfig ⟨2024, 5, 6, 10, 0, 0, 0⟩) ∧
    (createBackup appConfig ⟨2024, 5, 6, 10, 30, 0, 0⟩
        (createBackup appConfig ⟨2024, 5, 6, 10, 0, 0, 0⟩ ⟨true, []⟩).2).1.filePath =
      some (backupFileName appConfig ⟨2024, 5, 6, 10, 0, 0, 0⟩) ∧
    (createBackup appConfig ⟨2024, 5, 6, 10, 30, 0, 0⟩
        (createBackup appConfig ⟨2024, 5, 6, 10, 0, 0, 0⟩ ⟨true, []⟩).2).1.success = true ∧
    (⟨backupFileName appConfig ⟨2024, 5, 6, 10, 0, 0, 0⟩,
        (⟨2024, 5, 6, 10, 0, 0, 0⟩ : DateTime).key⟩ : BackupFile) ∈
      (createBackup appConfig ⟨2024, 5, 6, 10, 0, 0, 0⟩ ⟨true, []⟩).2.dir ∧
    (⟨backupFileName appConfig ⟨2024, 5, 6, 10, 0, 0, 0⟩,
        (⟨2024, 5, 6, 10, 30, 0, 0⟩ : DateTime).key⟩ : BackupFile) ∈
      (createBackup appConfig ⟨2024, 5, 6, 10, 30, 0, 0⟩
        (createBackup appConfig ⟨2024, 5, 6, 10, 0, 0, 0⟩ ⟨true, []⟩).2).2.dir ∧
    (createBackup appConfig ⟨2024, 5, 6, 10, 30, 0, 0⟩
        (createBackup appConfig ⟨2024, 5, 6, 10, 0, 0, 0⟩ ⟨true, []⟩).2).2.dir.length ≤
      (createBackup appConfig ⟨2024, 5, 6, 10, 0, 0, 0⟩ ⟨true, []⟩).2.dir.length :=
  c10_same_hour_overwrite appConfig ⟨true, []⟩ ⟨2024, 5, 6, 10, 0, 0, 0⟩
    ⟨2024, 5, 6, 10, 30, 0, 0⟩ rfl (by decide) (by decide)
    ⟨rfl, rfl, rfl, rfl⟩ (by intro f hf; cases hf) (by decide)

theorem toLowerCode_idem (c : Nat) : toLowerCode (toLowerCode c) = toLowerCode c := by
  unfold toLowerCode
  by_cases h : 65 ≤ c ∧ c ≤ 90
  · rw [if_pos h, if_neg (by omega)]
  · rw [if_neg h, if_neg h]

theorem mem_jsTrim {c : Nat} {l : List Nat} (h : c ∈ jsTrim l) : c ∈ l := by
  unfold jsTrim at h
  rw [List.mem_reverse] at h
  have h1 := (List.dropWhile_sublist _).subset h
  rw [List.mem_reverse] at h1
  exact (List.dropWhile_sublist _).subset h1

theorem map_eq_self_of_mem {f : Nat → Nat} :
    ∀ {l : List Nat}, (∀ c ∈ l, f c = c) → l.map f = l
  | [], _ => rfl
  | c :: t, h => by
      rw [List.map_cons, h c (by simp)]
      exact congrArg (c :: ·) (map_eq_self_of_mem fun x hx => h x (by simp [hx]))

theorem jsToLower_jsTrim_jsToLower (u : List Nat) :
    jsToLower (jsTrim (jsToLower u)) = jsTrim (jsToLower u) := by
  apply map_eq_self_of_mem
  intro c hc
  have hc2 : c ∈ jsToLower u := mem_jsTrim hc
  rw [jsToLower, List.mem_map] at hc2
  obtain ⟨a, _, ha⟩ := hc2
  rw [← ha]
  exact toLowerCode_idem a

/-- C3 counterexample: against the same provisioned user, a login failing on
the hash comparison answers "Invalid password" while a login failing on the
username check answers "Invalid username" — the two failure causes are
distinguishable by the caller, contrary to the claim. -/
theorem c3_counterexample :
    ((login appConfig aliceDb ⟨ str "alice", str "wrongpw", false⟩ 5 (str "t")).1).message =
      str "Invalid password" ∧
    ((login appConfig aliceDb ⟨ str "bob", str "secret1", false⟩ 5 (str "t")).1).message =
      str "Invalid username" ∧
    str "Invalid password" ≠ str "Invalid username" :=
  ⟨by decide, by decide, by decide⟩

/-- C3 as amended: both failure causes return success = false with no token,
no user and an unchanged database, but with distinct fixed messages
("Invalid password" / "Invalid username"), so the caller can tell the causes
apart by the message string. -/
theorem c3_failure_messages (cfg : AppConfig) (db : AuthDb) (data : LoginData)
    (now : Nat) (newToken : List Nat) (u : AuthUserRow)
    (hu : (db.users.find? fun r => r.id == 1) = some u) :
    (bcryptCompare data.password u.password_hash = false →
      (login cfg db data now newToken).1 =
        { success := false, message := str "Invalid password",
          sessionToken := none, user := none } ∧
      (login cfg db data now newToken).2 = db) ∧
    (bcryptCompare data.password u.password_hash = true →
      jsToLower u.username ≠ jsTrim (jsToLower data.username) →
      (login cfg db data now newToken).1 =
        { success := false, message := str "Invalid username",
          sessionToken := none, user := none } ∧
      (login cfg db data now newToken).2 = db) ∧
    str "Invalid password" ≠ str "Invalid username" := by
  refine ⟨?_, ?_, by decide⟩
  · intro hcmp
    constructor <;> simp [login, hu, hcmp]
  · intro hcmp hname
    constructor <;> simp [login, hu, hcmp, hname]

/-- C3 witness: the amended theorem applied to the concrete wrong-password
login against the provisioned user. -/
theorem c3_failure_messages_witness :
    ((login appConfig aliceDb ⟨ str "alice", str "wrongpw", false⟩ 5 (str "t")).1 =
      { success := false, message := str "Invalid password",
        sessionToken := none, user := none }) ∧
    ((login appConfig aliceDb ⟨ str "alice", str "wrongpw", false⟩ 5 (str "t")).2 =
      aliceDb) :=
  (c3_failure_messages appConfig aliceDb ⟨ str "alice", str "wrongpw", false⟩ 5 (str "t")
    aliceRow (by decide)).1 (by decide)

/-- C4 counterexample: the session of aliceDb expires at instant 100; a
validateSession call made exactly at instant 100 (expires_at = now, so
expires_at ≤ now holds) is reported valid by the code, while the claim
requires it to be invalid. -/
theorem c4_counterexample :
    (validateSession aliceDb (str "tok-1") 100).1.valid = true ∧
    (aliceDb.sessions.find? fun s => s.id == str "tok-1") =
      some { id := str "tok-1", user_id := 1, created_at := 0, expires_at := 100 } :=
  ⟨by decide, by decide⟩

/-- C4 as amended: when a stored session's expires_at is strictly before now,
validateSession returns invalid and deletes that session row, and a second
validateSession call on the same token (at any instant) finds no row and also
returns invalid, not an error; at the boundary expires_at = now the code
still reports the session valid. -/
theorem c4_expired_session (db : AuthDb) (tok : List Nat) (now now2 : Nat)
    (s : SessionRow)
    (hs : (db.sessions.find? fun r => r.id == tok) = some s)
    (hu : ((db.users.find? fun r => r.id == s.user_id)).isSome = true)
    (hexp : s.expires_at < now) :
    (validateSession db tok now).1.valid = false ∧
    (((validateSession db tok now).2).sessions.find? fun r => r.id == tok) = none ∧
    (validateSession ((validateSession db tok now).2) tok now2).1.valid = false := by
  obtain ⟨uu, huu⟩ := Option.isSome_iff_exists.mp hu
  have hres : validateSession db tok now =
      ({ valid := false, user := none },
       { db with sessions := db.sessions.filter fun r => r.id ≠ tok }) := by
    simp [validateSession, hs, huu, hexp]
  rw [hres]
  have hfind2 : ((db.sessions.filter fun r => r.id ≠ tok).find? fun r => r.id == tok)
      = none := by
    rw [List.find?_eq_none]
    intro x hx
    have hne := of_decide_eq_true (List.mem_filter.mp hx).2
    simp [hne]
  exact ⟨rfl, hfind2, validateSession_none hfind2⟩

/-- C4 witness: the amended theorem applied to the concrete session of
aliceDb one instant after its expiry. -/
theorem c4_expired_session_witness :
    (validateSession aliceDb (str "tok-1") 101).1.valid = false ∧
    (((validateSession aliceDb (str "tok-1") 101).2).sessions.find? fun r =>
      r.id == str "tok-1") = none ∧
    (validateSession ((validateSession aliceDb (str "tok-1") 101).2)
      (str "tok-1") 102).1.valid = false :=
  c4_expired_session aliceDb (str "tok-1") 101 102
    ⟨ str "tok-1", 1, 0, 100⟩ (by decide) (by decide) (by decide)

/-- C5 (confirmed): a successful changePassword call deletes every session
row for the user (every stored session belongs to user 1), so every token —
in particular any token for which validateSession returned valid immediately
before the call — is invalid immediately after it. -/
theorem c5_change_password_invalidates (db : AuthDb) (data : ChangePasswordData)
    (hall : ∀ s ∈ db.sessions, s.user_id = 1)
    (hsucc : ((changePassword db data).1).success = true) :
    ((changePassword db data).2).sessions = [] ∧
    ∀ (tok : List Nat) (now : Nat),
      (validateSession ((changePassword db data).2) tok now).1.valid = false := by
  have hempty : ((changePassword db data).2).sessions = [] := by
    unfold changePassword at hsucc ⊢
    cases hfind : db.users.find? fun r => r.id == 1 with
    | none =>
        rw [hfind] at hsucc
        simp at hsucc
    | some user =>
        rw [hfind] at hsucc
        by_cases hcmp : bcryptCompare data.currentPassword user.password_hash = false
        · simp [hcmp] at hsucc
        · by_cases hlen : data.newPassword.length < 6
          · simp [hcmp, hlen] at hsucc
          · simp [hcmp, hlen]
            intro x hx
            exact hall x hx
  refine ⟨hempty, fun tok now => validateSession_none ?_⟩
  rw [hempty]
  rfl

/-- C5 witness: the theorem applied to a concrete successful password change
on aliceDb; its remembered token is invalid afterwards. -/
theorem c5_change_password_invalidates_witness :
    ((changePassword aliceDb ⟨ str "secret1", str "newpass1"⟩).2).sessions = [] ∧
    (validateSession ((changePassword aliceDb ⟨ str "secret1", str "newpass1"⟩).2)
      (str "tok-1") 50).1.valid = false :=
  ⟨(c5_change_password_invalidates aliceDb ⟨ str "secret1", str "newpass1"⟩
      (by decide) (by decide)).1,
   (c5_change_password_invalidates aliceDb ⟨ str "secret1", str "newpass1"⟩
      (by decide) (by decide)).2 (str "tok-1") 50⟩

theorem usersInv_applyOp (cfg : AppConfig) (db : AuthDb) (op : AuthOp)
    (h : db.users = [] ∨ ∃ u, db.users = [u] ∧ u.id = 1) :
    (applyOp cfg db op).users = [] ∨
      ∃ u, (applyOp cfg db op).users = [u] ∧ u.id = 1 := by
  cases op with
  | opCreateUser data now =>
      show ((createUser db data now).2).users = [] ∨
        ∃ u, ((createUser db data now).2).users = [u] ∧ u.id = 1
      by_cases hsetup : isSetupComplete db = true
      · have he : (createUser db data now).2 = db := by simp [createUser, hsetup]
        rw [he]; exact h
      · have husers : db.users = [] := by
          rcases h with h0 | ⟨u, hu, hid⟩
          · exact h0
          · exfalso
            apply hsetup
            unfold isSetupComplete
            rw [hu]
            simp [List.find?, hid]
        by_cases h3 : data.username.length < 3
        · have he : (createUser db data now).2 = db := by simp [createUser, hsetup, h3]
          rw [he]; exact h
        · by_cases h6 : data.password.length < 6
          · have he : (createUser db data now).2 = db := by
              simp [createUser, hsetup, h3, h6]
            rw [he]; exact h
          · have he : (createUser db data now).2.users =
                [{ id := 1, username := jsTrim (jsToLower data.username),
                   password_hash := bcryptHash data.password, created_at := now,
                   last_login := none }] := by
              simp [createUser, hsetup, h3, h6, husers]
            exact Or.inr ⟨_, he, rfl⟩
  | opLogin data now newToken =>
      have hcases : ((login cfg db data now newToken).2).users = db.users ∨
          ((login cfg db data now newToken).2).users =
            db.users.map fun r =>
              if r.id == 1 then { r with last_login := some now } else r := by
        unfold login
        cases hfind : db.users.find? fun r => r.id == 1 with
        | none => exact Or.inl rfl
        | some user =>
            by_cases h1 : bcryptCompare data.password user.password_hash = false
            · left; simp [h1]
            · by_cases h2 : jsToLower user.username ≠ jsTrim (jsToLower data.username)
              · left; simp [h1, h2]
              · by_cases h3 : (data.rememberMe && cfg.rememberMeEnabled) = true
                · right; simp [h1, h2, h3]
                · right; simp [h1, h2, h3]
      show ((login cfg db data now newToken).2).users = [] ∨
        ∃ u, ((login cfg db data now newToken).2).users = [u] ∧ u.id = 1
      rcases hcases with he | he
      · rw [he]; exact h
      · rw [he]
        rcases h with h0 | ⟨u, hu, hid⟩
        · left; rw [h0]; rfl
        · right
          rw [hu]
          exact ⟨_, rfl, by simp [hid]⟩
  | opLogout sessionToken =>
      have he : ((logout db sessionToken).2).users = db.users := by
        cases sessionToken <;> rfl
      show ((logout db sessionToken).2).users = [] ∨
        ∃ u, ((logout db sessionToken).2).users = [u] ∧ u.id = 1
      rw [he]; exact h
  | opValidateSession sessionToken now =>
      have he : ((validateSession db sessionToken now).2).users = db.users := by
        unfold validateSession
        cases hfind : db.sessions.find? fun s => s.id == sessionToken with
        | none => rfl
        | some session =>
            cases hfind2 : db.users.find? fun u => u.id == session.user_id with
            | none => simp [hfind2]
            | some uu =>
                by_cases hexp : session.expires_at < now
                · simp [hfind2, hexp]
                · simp [hfind2, hexp]
      show ((validateSession db sessionToken now).2).users = [] ∨
        ∃ u, ((validateSession db sessionToken now).2).users = [u] ∧ u.id = 1
      rw [he]; exact h
  | opChangePassword data =>
      have hcases : ((changePassword db data).2).users = db.users ∨
          ((changePassword db data).2).users =
            db.users.map fun r =>
              if r.id == 1 then { r with password_hash := bcryptHash data.newPassword }
              else r := by
        unfold changePassword
        cases hfind : db.users.find? fun r => r.id == 1 with
        | none => exact Or.inl rfl
        | some user =>
            by_cases h1 : bcryptCompare data.currentPassword user.password_hash = false
            · left; simp [h1]
            · by_cases h2 : data.newPassword.length < 6
              · left; simp [h1, h2]
              · right; simp [h1, h2]
      show ((changePassword db data).2).users = [] ∨
        ∃ u, ((changePassword db data).2).users = [u] ∧ u.id = 1
      rcases hcases with he | he
      · rw [he]; exact h
      · rw [he]
        rcases h with h0 | ⟨u, hu, hid⟩
        · left; rw [h0]; rfl
        · right
          rw [hu]
          exact ⟨_, rfl, by simp [hid]⟩
  | opCleanupExpiredSessions now =>
      show (cleanupExpiredSessions db now).users = [] ∨
        ∃ u, (cleanupExpiredSessions db now).users = [u] ∧ u.id = 1
      exact h

theorem usersInv_applyOps (cfg : AppConfig) :
    ∀ (ops : List AuthOp) (db : AuthDb),
      (db.users = [] ∨ ∃ u, db.users = [u] ∧ u.id = 1) →
      ((applyOps cfg db ops).users = [] ∨
        ∃ u, (applyOps cfg db ops).users = [u] ∧ u.id = 1)
  | [], _, h => h
  | op :: rest, db, h =>
      usersInv_applyOps cfg rest (applyOp cfg db op) (usersInv_applyOp cfg db op h)

/-- C6 (confirmed): every provisioning call made while a user row exists
fails with "User already exists" and leaves the database unchanged (so the
auth_user row count stays exactly what it was, namely 1); and along any
sequence of auth operations starting from the freshly migrated database, at
most one auth_user row ever exists. -/
theorem c6_single_user :
    (∀ (db : AuthDb) (data : SetupData) (now : Nat), isSetupComplete db = true →
      (createUser db data now).1 =
        { success := false, message := str "User already exists" } ∧
      (createUser db data now).2 = db) ∧
    (∀ (cfg : AppConfig) (ops : List AuthOp),
      (applyOps cfg initialAuthDb ops).users.length ≤ 1) := by
  constructor
  · intro db data now hsetup
    constructor <;> simp [createUser, hsetup]
  · intro cfg ops
    rcases usersInv_applyOps cfg ops initialAuthDb (Or.inl rfl) with h | ⟨u, hu, -⟩
    · rw [h]; simp
    · rw [hu]; simp

/-- C6 witness: the theorem applied to a provisioning attempt against the
already-provisioned aliceDb, and to the empty operation sequence. -/
theorem c6_single_user_witness :
    ((createUser aliceDb ⟨ str "bob", str "hunter2"⟩ 7).1 =
      { success := false, message := str "User already exists" } ∧
     (createUser aliceDb ⟨ str "bob", str "hunter2"⟩ 7).2 = aliceDb) ∧
    (applyOps appConfig initialAuthDb []).users.length ≤ 1 :=
  ⟨c6_single_user.1 aliceDb ⟨ str "bob", str "hunter2"⟩ 7 (by decide),
   c6_single_user.2 appConfig []⟩

/-- C7 (confirmed): a (username, password) pair accepted by createUser
(username at least 3 characters, password at least 6, no user yet) can log in
immediately: login succeeds and returns the identity stored by provisioning
(id 1, the lowercased/trimmed username, the creation instant, no last_login);
and this holds whenever the login username agrees with the provisioned one up
to letter case and surrounding whitespace, i.e. when their
lowercased-then-trimmed forms coincide (the same pair is the special case
L = u). -/
theorem c7_provision_then_login (cfg : AppConfig) (db : AuthDb) (u p L : List Nat)
    (rememberMe : Bool) (now1 now2 : Nat) (newToken : List Nat)
    (hsetup : isSetupComplete db = false)
    (hu : 3 ≤ u.length) (hp : 6 ≤ p.length)
    (hL : jsTrim (jsToLower L) = jsTrim (jsToLower u)) :
    ((createUser db ⟨u, p⟩ now1).1).success = true ∧
    ((login cfg (createUser db ⟨u, p⟩ now1).2 ⟨L, p, rememberMe⟩ now2 newToken).1).success
      = true ∧
    ((login cfg (createUser db ⟨u, p⟩ now1).2 ⟨L, p, rememberMe⟩ now2 newToken).1).user =
      some ⟨1, jsTrim (jsToLower u), now1, none⟩ := by
  have hsetup2 : ¬ (isSetupComplete db = true) := by rw [hsetup]; exact Bool.false_ne_true
  have h3 : ¬ (u.length < 3) := by omega
  have h6 : ¬ (p.length < 6) := by omega
  have hsucc1 : ((createUser db ⟨u, p⟩ now1).1).success = true := by
    simp [createUser, hsetup2, h3, h6]
  have hres : (createUser db ⟨u, p⟩ now1).2 = { db with users := db.users ++
      [{ id := 1, username := jsTrim (jsToLower u), password_hash := bcryptHash p,
         created_at := now1, last_login := none }] } := by
    simp [createUser, hsetup2, h3, h6]
  have hnone : (db.users.find? fun r => r.id == 1) = none := by
    cases hfind : db.users.find? fun r => r.id == 1 with
    | none => rfl
    | some v =>
        unfold isSetupComplete at hsetup
        rw [hfind] at hsetup
        simp at hsetup
  have hfind : ((createUser db ⟨u, p⟩ now1).2.users.find? fun r => r.id == 1) =
      some { id := 1, username := jsTrim (jsToLower u), password_hash := bcryptHash p,
             created_at := now1, last_login := none } := by
    have husers : (createUser db ⟨u, p⟩ now1).2.users = db.users ++
        [{ id := 1, username := jsTrim (jsToLower u), password_hash := bcryptHash p,
           created_at := now1, last_login := none }] := by
      simp [createUser, hsetup2, h3, h6]
    rw [husers, List.find?_append, hnone]
    simp [List.find?]
  have hulow : jsToLower (jsTrim (jsToLower u)) = jsTrim (jsToLower L) := by
    rw [jsToLower_jsTrim_jsToLower, hL]
  refine ⟨hsucc1, ?_, ?_⟩
  · cases hrm : rememberMe && cfg.rememberMeEnabled <;>
      simp [login, hfind, bcryptCompare, bcryptHash, hulow, hrm]
  · cases hrm : rememberMe && cfg.rememberMeEnabled <;>
      simp [login, hfind, bcryptCompare, bcryptHash, hulow, hrm]

/-- C7 witness: provisioning "Alice"/"secret1" on the fresh database, then
logging in as "  ALICE " with the same password. -/
theorem c7_provision_then_login_witness :
    ((createUser initialAuthDb ⟨ str "Alice", str "secret1"⟩ 5).1).success = true ∧
    ((login appConfig (createUser initialAuthDb ⟨ str "Alice", str "secret1"⟩ 5).2
        ⟨ str "  ALICE ", str "secret1", true⟩ 9 (str "tok-9")).1).success = true ∧
    ((login appConfig (createUser initialAuthDb ⟨ str "Alice", str "secret1"⟩ 5).2
        ⟨ str "  ALICE ", str "secret1", true⟩ 9 (str "tok-9")).1).user =
      some ⟨1, jsTrim (jsToLower (str "Alice")), 5, none⟩ :=
  c7_provision_then_login appConfig initialAuthDb (str "Alice") (str "secret1")
    (str "  ALICE ") true 5 9 (str "tok-9") (by decide) (by decide) (by decide) (by decide)
